import Mathlib

/-
Verification of the session state controller of the checkbox repository
(plainbox/impl/ctrl.py): dependency-set computation, the readiness
inhibitor engine, before-reference linking, result observation and
resource-driven template instantiation.

The Python source is shallowly embedded: dictionaries become association
lists, dictionary indexing that can raise KeyError becomes an Except
computation, Python sets that feed into set-valued results become
Finsets, and logging becomes explicit log-message values.  Collaborator
classes that are not part of the source tree (the rfc822 paragraph
parser, TemplateUnit instantiation, SessionState bookkeeping and the
resource expression evaluator) are modelled from the specification and
are marked as such in their doc comments.
-/

namespace Plainbox

/-- Job result outcomes, from the IJobResult outcome constants. -/
inductive Outcome where
  | NONE
  | PASS
  | FAIL
  | CRASH
  | SKIP
  | NOT_SUPPORTED
deriving DecidableEq, Repr

/-- Inhibition causes from plainbox.impl.session.jobs.InhibitionCause. -/
inductive InhibitionCause where
  | UNDESIRED
  | PENDING_DEP
  | FAILED_DEP
  | PENDING_RESOURCE
  | FAILED_RESOURCE
  | NOT_FAILED_DEP
deriving DecidableEq, Repr

/-- A resource record: an immutable mapping of string keys to string
values produced by parsing one paragraph of resource job output.
Embedded as an association list. -/
abbrev Resource := List (String × String)

/-- The empty resource record, Resource({}) in the source. -/
def emptyResource : Resource := []

/-- The resource map: resource id to list of resource records. -/
abbrev ResourceMap := List (String × List Resource)

/-- A requirement expression; the controller only inspects the list of
resource ids it references (exc.expression.resource_id_list). -/
structure Expression where
  resource_id_list : List String
deriving DecidableEq, Repr

/-- A compiled requirement program.  Its evaluation is performed by the
external expression evaluator collaborator, which is passed to
get_inhibitor_list as a function parameter. -/
structure ResourceProgram where
  expression_list : List Expression
deriving DecidableEq, Repr

/-- Result of evaluating a resource program: normal completion, an
ExpressionCannotEvaluateError or an ExpressionFailedError, each carrying
the offending expression. -/
inductive EvalOutcome where
  | ok
  | cannotEvaluate (e : Expression)
  | failed (e : Expression)
deriving DecidableEq, Repr

/-- Result of job.get_resource_dependencies(): either the list of
resource ids referenced by the requirement program, or a
ResourceProgramError raised for a malformed program. -/
inductive ResourceDepsResult where
  | ok (ids : List String)
  | programError
deriving DecidableEq, Repr

/-- One inline sibling declaration of a job; the controller reads only
the list under the "depends" key of the parsed JSON. -/
structure Sibling where
  depends : List String
deriving DecidableEq, Repr

/-- A job definition, restricted to the fields the controller reads. -/
structure Job where
  id : String
  depends : List String
  afterDeps : List String
  salvageDeps : List String
  beforeDeps : List String
  resourceDepsResult : ResourceDepsResult
  resourceProgram : Option ResourceProgram
  plugin : String
  flags : List String
  siblings : List Sibling
  before_references : List String
deriving DecidableEq, Repr

/-- A job readiness inhibitor, from
plainbox.impl.session.jobs.JobReadinessInhibitor: a cause, an optional
related job and an optional related expression, compared by value. -/
structure JobReadinessInhibitor where
  cause : InhibitionCause
  related_job : Option Job
  related_expression : Option Expression
deriving DecidableEq, Repr

/-- A job result: the outcome together with the captured IO log.  Each
IO log record is (delay, stream_name, text). -/
structure JobResult where
  outcome : Outcome
  io_log : List (Nat × String × String)
deriving DecidableEq, Repr

/-- Modelled from the spec: the two well-known suspend checkpoint job
ids and their associated also-after-suspend flags, from
plainbox.suspend_consts which is not part of the source tree. -/
def Suspend.AUTO_JOB_ID : String :=
  "com.canonical.certification::suspend/suspend_advanced_auto"

/-- Modelled from the spec: the manual suspend checkpoint job id. -/
def Suspend.MANUAL_JOB_ID : String :=
  "com.canonical.certification::suspend/suspend_advanced"

/-- Modelled from the spec: flag marking jobs to run before the
automatic suspend checkpoint. -/
def Suspend.AUTO_FLAG : String := "also-after-suspend"

/-- Modelled from the spec: flag marking jobs to run before the manual
suspend checkpoint. -/
def Suspend.MANUAL_FLAG : String := "also-after-suspend-manual"

/-- Modelled from the spec: the session metadata flag enabling strict
template expansion. -/
def FLAG_FEATURE_STRICT_TEMPLATE_EXPANSION : String :=
  "feature_strict_template_expansion"

/-- Severity of a unit check finding, from plainbox.impl.validation. -/
inductive Severity where
  | error
  | warning
  | advice
deriving DecidableEq, Repr

/-- One finding reported by unit.check(). -/
structure Finding where
  severity : Severity
  message : String
deriving DecidableEq, Repr

/-- Modelled from the spec: the result of unit.check() on a generated
unit, which either raises MissingParam or returns a list of findings.
The unit classes are not part of the source tree, so the check result is
carried as data on the generated unit. -/
inductive CheckResult where
  | missingParam (p : String)
  | findings (fs : List Finding)
deriving DecidableEq, Repr

/-- A validation error embedded into an InvalidJob placeholder: either
the MissingParam exception or an error-severity finding. -/
inductive ValError where
  | missingParam (p : String)
  | finding (f : Finding)
deriving DecidableEq, Repr

/-- A concrete job unit generated by instantiating a template against
one resource record. -/
structure GenUnit where
  id : String
  check : CheckResult
deriving DecidableEq, Repr

/-- Modelled from the spec: a template unit bound to a resource id;
instantiateOne produces the candidate unit for one resource record (the
Bool argument is the fake_resources flag). -/
structure TemplateUnit where
  resource_id : String
  instantiateOne : Resource → Bool → GenUnit

/-- Modelled from the spec: TemplateUnit.instantiate_all produces one
candidate unit per resource record. -/
def TemplateUnit.instantiate_all (t : TemplateUnit) (resource_list : List Resource)
    (fake_resources : Bool) : List GenUnit :=
  resource_list.map (fun r => t.instantiateOne r fake_resources)

/-- A unit held in the session unit collection: an ordinary job, a
template, a generated job, or an InvalidJob placeholder wrapping a
generated unit that failed validation. -/
inductive SUnit where
  | jobUnit (j : Job)
  | templateUnit (t : TemplateUnit)
  | genJob (u : GenUnit)
  | invalidJob (id : String) (errors : List ValError)

/-- The id a session unit answers to. -/
def SUnit.unitId : SUnit → String
  | .jobUnit j => j.id
  | .templateUnit t => t.resource_id
  | .genJob u => u.id
  | .invalidJob i _ => i

/-- Per-job state held by the session: the job, its current result and
its readiness inhibitor list. -/
structure JobState where
  job : Job
  result : JobResult
  readiness_inhibitor_list : List JobReadinessInhibitor
deriving DecidableEq

/-- Modelled from the spec: session notifications and the readiness
recomputation trigger, recorded as an event trace since SessionState is
an external collaborator. -/
inductive SessionEvent where
  | jobStateMapChanged
  | jobResultChanged (job_id : String) (result : JobResult)
  | recomputedReadiness
deriving DecidableEq, Repr

/-- Modelled from the spec: the session state owns the job state map,
the resource map, the unit collection and the metadata flags. -/
structure SessionState where
  job_state_map : List (String × JobState)
  resource_map : ResourceMap
  unit_list : List SUnit
  metadata_flags : List String
  events : List SessionEvent

/-- Python dictionary indexing job_state_map[k]: KeyError when the key
is absent. -/
def lookupState (m : List (String × JobState)) (k : String) : Except String JobState :=
  match m.lookup k with
  | some v => Except.ok v
  | none => Except.error ("KeyError: " ++ k)

/-- Python dictionary indexing resource_map[k]: KeyError when the key is
absent. -/
def lookupResource (m : ResourceMap) (k : String) : Except String (List Resource) :=
  match m.lookup k with
  | some v => Except.ok v
  | none => Except.error ("KeyError: " ++ k)

/-- Pointwise update of the value stored under a key of an association
list, the embedding of mutating a dictionary entry in place. -/
def updateValues {β : Type} : List (String × β) → String → (β → β) → List (String × β)
  | [], _, _ => []
  | e :: es, k, f =>
    (if e.1 = k then (e.1, f e.2) else e) :: updateValues es k f

/-- Modelled from the spec: SessionState.set_resource_list replaces the
entry for the resource id wholesale (dictionary assignment). -/
def setResourceList (m : ResourceMap) (k : String) (v : List Resource) : ResourceMap :=
  if (m.lookup k).isSome then
    updateValues m k (fun _ => v)
  else
    m ++ [(k, v)]

/-- Mutating the job state stored under an existing key of the job state
map. -/
def updateState (m : List (String × JobState)) (k : String) (v : JobState) :
    List (String × JobState) :=
  updateValues m k (fun _ => v)

/-! ## Resource output parsing

The rfc822 paragraph parser (plainbox.impl.secure.rfc822) is not part of
the source tree; it is modelled from the spec: blocks of key: value
lines separated by blank lines, each paragraph becoming one record, with
an RFC822SyntaxError raised at the first malformed paragraph. -/

/-- The stdout-stream lines of a captured IO log, in order. -/
def stdoutLines (result : JobResult) : List String :=
  result.io_log.filterMap (fun r => if r.2.1 == "stdout" then some r.2.2 else none)

/-- Split a line sequence into paragraphs at blank lines; every returned
paragraph is a nonempty run of non-blank lines. -/
def splitParagraphsAux : List String → List String → List (List String)
  | [], cur => if cur.isEmpty then [] else [cur.reverse]
  | l :: ls, cur =>
    if l == "" then
      if cur.isEmpty then splitParagraphsAux ls []
      else cur.reverse :: splitParagraphsAux ls []
    else
      splitParagraphsAux ls (l :: cur)

/-- Paragraphs of a line sequence. -/
def splitParagraphs (lines : List String) : List (List String) :=
  splitParagraphsAux lines []

/-- Split a character sequence at the first colon: the key characters
before it and the value characters after it; none when there is no
colon. -/
def splitAtColon : List Char → Option (List Char × List Char)
  | [] => none
  | c :: rest =>
    if c = ':' then some ([], rest)
    else
      match splitAtColon rest with
      | some (k, v) => some (c :: k, v)
      | none => none

/-- Drop the leading spaces of a value character sequence. -/
def dropLeadingSpaces : List Char → List Char
  | [] => []
  | c :: rest => if c = ' ' then dropLeadingSpaces rest else c :: rest

/-- Modelled from the spec: parse one key: value line; a line without a
colon is malformed. -/
def parseLine (s : String) : Option (String × String) :=
  match splitAtColon s.toList with
  | some (k, v) => some (String.mk k, String.mk (dropLeadingSpaces v))
  | none => none

/-- Modelled from the spec: parse one paragraph into a record; the
paragraph is malformed when any of its lines is. -/
def parseParagraph : List String → Option Resource
  | [] => some []
  | l :: ls => do
    let kv ← parseLine l
    let rest ← parseParagraph ls
    pure (kv :: rest)

/-- Modelled from the spec: gen_rfc822_records yields one record per
well-formed paragraph and raises RFC822SyntaxError at the first
malformed paragraph; the Bool is true when such an error was raised. -/
def genRecordsFromParagraphs : List (List String) → List Resource × Bool
  | [] => ([], false)
  | p :: ps =>
    match parseParagraph p with
    | none => ([], true)
    | some r =>
      let rest := genRecordsFromParagraphs ps
      (r :: rest.1, rest.2)

/-- Embedding of gen_rfc822_records_from_io_log: select the stdout lines
of the result IO log and parse them as rfc822 paragraph records; the
RFC822SyntaxError, if any, is caught and turned into a warning (the Bool
component), after which no further records are produced. -/
def gen_rfc822_records_from_io_log (job : Job) (result : JobResult) :
    List Resource × Bool :=
  let lines := stdoutLines result
  let source := job.id
  let _ := source
  genRecordsFromParagraphs (splitParagraphs lines)

/-! ## Resource result processing -/

/-- Embedding of CheckBoxSessionStateController._parse_and_store_resource:
skip on outcome NONE, otherwise parse the IO log into records and
replace the resource map entry, storing a single empty record when no
record was parsed. -/
def parse_and_store_resource (st : SessionState) (job : Job) (result : JobResult) :
    SessionState :=
  if result.outcome = Outcome.NONE then st
  else
    let new_resource_list := (gen_rfc822_records_from_io_log job result).1
    let new_resource_list :=
      if new_resource_list.isEmpty then [emptyResource] else new_resource_list
    { st with resource_map := setResourceList st.resource_map job.id new_resource_list }

/-- Embedding of CheckBoxSessionStateController._filter_invalid_log:
true when the generated unit has to be kept in lenient mode. -/
def filter_invalid_log (u : GenUnit) : Bool :=
  match u.check with
  | .missingParam _ => false
  | .findings fs => (fs.filter (fun c => c.severity == Severity.error)).isEmpty

/-- Embedding of CheckBoxSessionStateController._wrap_invalid_units:
return the unit itself when it has no error, otherwise an InvalidJob
placeholder preserving the id and embedding the errors. -/
def wrap_invalid_units (u : GenUnit) : SUnit :=
  match u.check with
  | .missingParam p => SUnit.invalidJob u.id [ValError.missingParam p]
  | .findings fs =>
    let errors := fs.filter (fun c => c.severity == Severity.error)
    if errors.isEmpty then SUnit.genJob u
    else SUnit.invalidJob u.id (errors.map ValError.finding)

/-- The template units of the session unit collection bound to the given
resource id. -/
def boundTemplates (st : SessionState) (rid : String) : List TemplateUnit :=
  st.unit_list.filterMap (fun u =>
    match u with
    | SUnit.templateUnit t => if t.resource_id == rid then some t else none
    | _ => none)

/-- Modelled from the spec: SessionState.add_unit inserts the unit into
the session unit collection without recomputing readiness. -/
def add_unit (st : SessionState) (u : SUnit) : SessionState :=
  { st with unit_list := st.unit_list ++ [u] }

/-- Modelled from the spec: SessionState._recompute_job_readiness
triggers one session-wide readiness recomputation, recorded as an
event. -/
def recompute_job_readiness (st : SessionState) : SessionState :=
  { st with events := st.events ++ [SessionEvent.recomputedReadiness] }

/-- Embedding of CheckBoxSessionStateController._instantiate_templates:
skip on outcome NONE; otherwise expand every template bound to the
resource id against the stored records, validate the candidates in
strict or lenient mode, insert the survivors and trigger one readiness
recomputation. -/
def instantiate_templates (st : SessionState) (job : Job) (result : JobResult)
    (fake_resources : Bool) : Except String SessionState :=
  if result.outcome = Outcome.NONE then Except.ok st
  else do
    let template_units := boundTemplates st job.id
    let parsed_resource ← lookupResource st.resource_map job.id
    let new_units :=
      (template_units.map (fun t =>
        t.instantiate_all parsed_resource fake_resources)).flatten
    let kept : List SUnit :=
      if st.metadata_flags.contains FLAG_FEATURE_STRICT_TEMPLATE_EXPANSION then
        new_units.map wrap_invalid_units
      else
        (new_units.filter filter_invalid_log).map SUnit.genJob
    let st := kept.foldl add_unit st
    Except.ok (recompute_job_readiness st)

/-- Embedding of CheckBoxSessionStateController._process_resource_result:
parse and store the records, then instantiate templates unless the
stored entry is the empty-record sentinel.  The resource map indexing
can raise KeyError. -/
def process_resource_result (st : SessionState) (job : Job) (result : JobResult)
    (fake_resources : Bool) : Except String SessionState := do
  let st := parse_and_store_resource st job result
  let entry ← lookupResource st.resource_map job.id
  if entry ≠ [emptyResource] then
    instantiate_templates st job result fake_resources
  else
    Except.ok st

/-- Embedding of CheckBoxSessionStateController.observe_result: store
the result under the job id (KeyError when the job has no state), fire
the two session notifications, then process resource output for
resource-plugin jobs. -/
def observe_result (st : SessionState) (job : Job) (result : JobResult)
    (fake_resources : Bool) : Except String SessionState := do
  let js ← lookupState st.job_state_map job.id
  let st := { st with
    job_state_map := updateState st.job_state_map job.id
      { js with result := result }
    events := st.events ++
      [SessionEvent.jobStateMapChanged,
       SessionEvent.jobResultChanged job.id result] }
  if job.plugin = "resource" then
    process_resource_result st job result fake_resources
  else
    Except.ok st

/-! ## Dependency set builder and before-reference linker -/

/-- Dependency edge types, from plainbox.impl.depmgr.DependencyType. -/
inductive DependencyType where
  | DEPENDS
  | AFTER
  | RESOURCE
  | BEFORE
deriving DecidableEq, Repr

/-- Embedding of
CheckBoxSessionStateController._is_job_impacting_suspend: the job
carries the also-after-suspend flag matching the checkpoint, or declares
a sibling whose dependency list names the checkpoint job id. -/
def is_job_impacting_suspend (suspend_job_id : String) (job : Job) : Bool :=
  let expected_flag : Option String :=
    if suspend_job_id = Suspend.AUTO_JOB_ID then some Suspend.AUTO_FLAG
    else if suspend_job_id = Suspend.MANUAL_JOB_ID then some Suspend.MANUAL_FLAG
    else none
  (match expected_flag with
   | some f => job.flags.contains f
   | none => false)
  || job.siblings.any (fun s => s.depends.contains suspend_job_id)

/-- Embedding of
CheckBoxSessionStateController._get_before_suspend_dependency_set: the
ids of the jobs in the list that impact the given suspend checkpoint
(the Python set is fed into a set-valued result, so a list of ids is an
adequate carrier). -/
def get_before_suspend_dependency_set (suspend_job_id : String)
    (job_list : List Job) : List String :=
  (job_list.filter (is_job_impacting_suspend suspend_job_id)).map Job.id

/-- Embedding of CheckBoxSessionStateController.get_dependency_set: the
set of (dep_type, job_id) pairs for the direct, resource, after, suspend
and before-reference dependencies of the job; a malformed resource
program degrades to no resource edges. -/
def get_dependency_set (job : Job) (job_list : List Job) :
    Finset (DependencyType × String) :=
  let direct_deps := job.depends.map (fun i => (DependencyType.DEPENDS, i))
  let resource_ids :=
    match job.resourceDepsResult with
    | .ok ids => ids
    | .programError => []
  let resource_deps := resource_ids.map (fun i => (DependencyType.RESOURCE, i))
  let after_deps := job.afterDeps.map (fun i => (DependencyType.AFTER, i))
  let suspend_ids :=
    if job.id = Suspend.AUTO_JOB_ID ∨ job.id = Suspend.MANUAL_JOB_ID then
      get_before_suspend_dependency_set job.id job_list
    else []
  let suspend_deps := suspend_ids.map (fun i => (DependencyType.AFTER, i))
  let before_refs := job.before_references.map (fun i => (DependencyType.BEFORE, i))
  (direct_deps ++ resource_deps ++ after_deps ++ suspend_deps ++ before_refs).toFinset

/-- A log message emitted by the before-reference linker. -/
inductive LogMsg where
  | errorMissingGlobal (job_id dep_id : String)
  | debugNotInPlan (job_id dep_id : String)
deriving DecidableEq, Repr

/-- Adding an id to the before_references set of a job (Python set.add:
idempotent). -/
def addRef (j : Job) (i : String) : Job :=
  if j.before_references.contains i then j
  else { j with before_references := j.before_references ++ [i] }

/-- Updating the job stored under an existing key of a job map. -/
def updateJob (m : List (String × Job)) (k : String) (f : Job → Job) :
    List (String × Job) :=
  updateValues m k f

/-- One step of the before-reference linker loop body, for a single id
of the before list of the job. -/
def beforeDepStep (job : Job) (global_job_map : List (String × Job))
    (acc : List (String × Job) × List LogMsg) (dep_id : String) :
    List (String × Job) × List LogMsg :=
  if (global_job_map.lookup dep_id).isNone then
    (acc.1, acc.2 ++ [LogMsg.errorMissingGlobal job.id dep_id])
  else if (acc.1.lookup dep_id).isNone then
    (acc.1, acc.2 ++ [LogMsg.debugNotInPlan job.id dep_id])
  else
    (updateJob acc.1 dep_id (fun j => addRef j job.id), acc.2)

/-- Embedding of CheckBoxSessionStateController.add_before_deps: for
each id of the before list of the job, record the job id into the
before_references set of the referenced job when it is both in the
global catalog and in the active job map, logging a skip otherwise.  The
function is total: the embedding raises no error on any input. -/
def add_before_deps (job : Job) (job_map global_job_map : List (String × Job)) :
    List (String × Job) × List LogMsg :=
  job.beforeDeps.foldl (beforeDepStep job global_job_map) (job_map, [])

/-- The one-time linker pass running add_before_deps over the full
selected job list. -/
def add_before_deps_all (jobs : List Job) (job_map global_job_map : List (String × Job)) :
    List (String × Job) :=
  jobs.foldl (fun m j => (add_before_deps j m global_job_map).1) job_map

/-! ## Readiness inhibitor engine -/

/-- The inhibitors contributed by the resource requirement step of
get_inhibitor_list.  The expression evaluator is the external
collaborator passed in as evalP. -/
def resourceInhibitors (evalP : ResourceProgram → ResourceMap → EvalOutcome)
    (st : SessionState) (job : Job) : Except String (List JobReadinessInhibitor) :=
  match job.resourceProgram with
  | none => Except.ok []
  | some prog =>
    match evalP prog st.resource_map with
    | .ok => Except.ok []
    | .cannotEvaluate e =>
      (e.resource_id_list.foldlM (fun acc resource_id => do
        let s ← lookupState st.job_state_map resource_id
        if s.result.outcome = Outcome.PASS then
          pure acc
        else
          pure (acc ++
            [⟨InhibitionCause.PENDING_RESOURCE, some s.job, some e⟩]))
        ([] : List JobReadinessInhibitor))
    | .failed e =>
      (e.resource_id_list.foldlM (fun acc resource_id => do
        let s ← lookupState st.job_state_map resource_id
        pure (acc ++
          [⟨InhibitionCause.FAILED_RESOURCE, some s.job, some e⟩]))
        ([] : List JobReadinessInhibitor))

/-- Sorting of dependency ids, as Python sorted() on strings. -/
def sortIds (l : List String) : List String :=
  List.insertionSort (fun a b => a ≤ b) l

/-- The inhibitors contributed by one dependency loop of
get_inhibitor_list: for each dependency id in order, look up its job
state (KeyError when absent) and append the inhibitors the given step
function derives from it. -/
def depListInhibitors (st : SessionState)
    (f : JobState → List JobReadinessInhibitor) :
    List String → Except String (List JobReadinessInhibitor)
  | [] => Except.ok []
  | d :: ds => do
    let s ← lookupState st.job_state_map d
    let rest ← depListInhibitors st f ds
    pure (f s ++ rest)

/-- The hard dependency step body: PENDING_DEP on outcome NONE,
FAILED_DEP on any other outcome than PASS. -/
def hardDepStep (s : JobState) : List JobReadinessInhibitor :=
  if s.result.outcome = Outcome.NONE then
    [⟨InhibitionCause.PENDING_DEP, some s.job, none⟩]
  else if s.result.outcome ≠ Outcome.PASS then
    [⟨InhibitionCause.FAILED_DEP, some s.job, none⟩]
  else []

/-- The after dependency step body: PENDING_DEP on outcome NONE only. -/
def afterDepStep (s : JobState) : List JobReadinessInhibitor :=
  if s.result.outcome = Outcome.NONE then
    [⟨InhibitionCause.PENDING_DEP, some s.job, none⟩]
  else []

/-- The salvage dependency step body: NOT_FAILED_DEP unless the
dependency outcome is FAIL. -/
def salvageDepStep (s : JobState) : List JobReadinessInhibitor :=
  if s.result.outcome ≠ Outcome.FAIL then
    [⟨InhibitionCause.NOT_FAILED_DEP, some s.job, none⟩]
  else []

/-- The hard dependency loop of get_inhibitor_list, visiting the sorted
direct dependencies. -/
def hardDepInhibitors (st : SessionState) (job : Job) :
    Except String (List JobReadinessInhibitor) :=
  depListInhibitors st hardDepStep (sortIds job.depends)

/-- The after dependency loop of get_inhibitor_list. -/
def afterDepInhibitors (st : SessionState) (job : Job) :
    Except String (List JobReadinessInhibitor) :=
  depListInhibitors st afterDepStep (sortIds job.afterDeps)

/-- The salvage dependency loop of get_inhibitor_list. -/
def salvageDepInhibitors (st : SessionState) (job : Job) :
    Except String (List JobReadinessInhibitor) :=
  depListInhibitors st salvageDepStep (sortIds job.salvageDeps)

/-- The run list examined by the suspend inhibitor computation: jobs of
the session whose state does not already carry an UNDESIRED inhibitor,
restricted to those impacting the suspend checkpoint. -/
def suspendImpactingRunList (st : SessionState) (suspend_job_id : String) :
    List Job :=
  let undesired_inhibitor : JobReadinessInhibitor :=
    ⟨InhibitionCause.UNDESIRED, none, none⟩
  let run_list :=
    ((st.job_state_map.map Prod.snd).filter
      (fun s => ¬ undesired_inhibitor ∈ s.readiness_inhibitor_list)).map
      JobState.job
  run_list.filter (is_job_impacting_suspend suspend_job_id)

/-- The per-job body of the suspend inhibitor loop: a PENDING_DEP
inhibitor when the linked job outcome is still NONE. -/
def suspendPendingInhibitors (st : SessionState) :
    List Job → Except String (List JobReadinessInhibitor)
  | [] => Except.ok []
  | j :: js => do
    let s ← lookupState st.job_state_map j.id
    let rest ← suspendPendingInhibitors st js
    pure ((if s.result.outcome = Outcome.NONE then
      [(⟨InhibitionCause.PENDING_DEP, some j, none⟩ : JobReadinessInhibitor)]
    else []) ++ rest)

/-- Embedding of
CheckBoxSessionStateController._get_suspend_inhibitor_list: a
PENDING_DEP inhibitor for every desired job linked to the suspend
checkpoint whose outcome is still NONE. -/
def get_suspend_inhibitor_list (st : SessionState) (suspend_job : Job) :
    Except String (List JobReadinessInhibitor) :=
  suspendPendingInhibitors st (suspendImpactingRunList st suspend_job.id)

/-- The suspend special case of get_inhibitor_list: the suspend
inhibitors when the job id is one of the two checkpoint ids, nothing
otherwise. -/
def suspendStep (st : SessionState) (job : Job) :
    Except String (List JobReadinessInhibitor) :=
  if job.id = Suspend.AUTO_JOB_ID ∨ job.id = Suspend.MANUAL_JOB_ID then
    get_suspend_inhibitor_list st job
  else
    Except.ok []

/-- Embedding of CheckBoxSessionStateController.get_inhibitor_list: the
resource requirement step, the three dependency loops and the suspend
checkpoint special case, appended in source order. -/
def get_inhibitor_list (evalP : ResourceProgram → ResourceMap → EvalOutcome)
    (st : SessionState) (job : Job) :
    Except String (List JobReadinessInhibitor) := do
  let r ← resourceInhibitors evalP st job
  let h ← hardDepInhibitors st job
  let a ← afterDepInhibitors st job
  let sv ← salvageDepInhibitors st job
  let sp ← suspendStep st job
  pure (r ++ h ++ a ++ sv ++ sp)

/-! ## Generic lemmas about the embedded state operations -/

theorem except_ok_bind {α β : Type} (a : α) (k : α → Except String β) :
    (Except.ok a >>= k) = k a := rfl

theorem except_error_bind {α β : Type} (a : String) (k : α → Except String β) :
    ((Except.error a : Except String α) >>= k) = Except.error a := rfl

theorem except_pure {α : Type} (a : α) : (pure a : Except String α) = Except.ok a := rfl

theorem bind_ok_iff {α β : Type} {e : Except String α} {k : α → Except String β} {v : β} :
    (e >>= k) = Except.ok v ↔ ∃ w, e = Except.ok w ∧ k w = Except.ok v := by
  cases e with
  | error a => simp [except_error_bind]
  | ok w => simp [except_ok_bind]

theorem lookupState_ok {m : List (String × JobState)} {k : String} {s : JobState} :
    lookupState m k = Except.ok s ↔ m.lookup k = some s := by
  unfold lookupState
  cases h : m.lookup k <;> simp

theorem lookupResource_ok {m : ResourceMap} {k : String} {v : List Resource} :
    lookupResource m k = Except.ok v ↔ m.lookup k = some v := by
  unfold lookupResource
  cases h : m.lookup k <;> simp

theorem lookup_updateValues_self {β : Type} (m : List (String × β)) (k : String)
    (f : β → β) : (updateValues m k f).lookup k = (m.lookup k).map f := by
  induction m with
  | nil => rfl
  | cons e es ih =>
    simp only [updateValues]
    by_cases he : e.1 = k
    · rw [if_pos he]
      have hk : (k == e.1) = true := by
        rw [beq_iff_eq]
        exact he.symm
      simp [List.lookup, hk]
    · rw [if_neg he]
      have hk : (k == e.1) = false := by
        rw [beq_eq_false_iff_ne]
        exact fun h2 => he h2.symm
      simp [List.lookup, hk, ih]

theorem lookup_updateValues_ne {β : Type} (m : List (String × β)) (k q : String)
    (f : β → β) (h : q ≠ k) :
    (updateValues m k f).lookup q = m.lookup q := by
  induction m with
  | nil => rfl
  | cons e es ih =>
    simp only [updateValues]
    by_cases he : e.1 = k
    · rw [if_pos he]
      have hq : (q == e.1) = false := by
        rw [beq_eq_false_iff_ne, he]
        exact h
      simp [List.lookup, hq, ih]
    · rw [if_neg he]
      cases hq : (q == e.1) with
      | true => simp [List.lookup, hq]
      | false => simp [List.lookup, hq, ih]

theorem lookup_append_single_of_none {β : Type} (m : List (String × β)) (k : String)
    (v : β) (h : m.lookup k = none) : (m ++ [(k, v)]).lookup k = some v := by
  induction m with
  | nil => simp [List.lookup]
  | cons e es ih =>
    cases hq : (k == e.1) with
    | true => simp [List.lookup, hq] at h
    | false =>
      simp only [List.lookup, hq] at h
      simp [List.lookup, hq, ih h]

theorem lookup_setResourceList_self (m : ResourceMap) (k : String) (v : List Resource) :
    (setResourceList m k v).lookup k = some v := by
  unfold setResourceList
  by_cases h : (m.lookup k).isSome
  · rw [if_pos h, lookup_updateValues_self]
    obtain ⟨w, hw⟩ := Option.isSome_iff_exists.mp h
    simp [hw]
  · rw [if_neg h]
    exact lookup_append_single_of_none m k v (Option.not_isSome_iff_eq_none.mp h)

/-! ## C3: processing a NONE result for a resource job -/

/-- A minimal resource job used to exercise the resume edge case. -/
def c3Job : Job :=
  { id := "r", depends := [], afterDeps := [], salvageDeps := [], beforeDeps := []
    resourceDepsResult := .ok [], resourceProgram := none, plugin := "resource"
    flags := [], siblings := [], before_references := [] }

/-- A result with outcome NONE, as seen when resuming a session whose
resource job never ran. -/
def c3Result : JobResult := { outcome := Outcome.NONE, io_log := [] }

/-- A session state whose resource map has no entry for the resource
job, as when the job never produced output before suspend. -/
def c3State : SessionState :=
  { job_state_map :=
      [("r", { job := c3Job, result := c3Result, readiness_inhibitor_list := [] })]
    resource_map := [], unit_list := [], metadata_flags := [], events := [] }

/-- C3: the claim states that _process_resource_result with outcome NONE
is a no-op that never raises, including when resource_map has no entry
for the job id yet.  The code contradicts this: after the early return
of _parse_and_store_resource, _process_resource_result still indexes
resource_map[job.id] unguarded, which raises KeyError when the entry is
absent.  This theorem evaluates the embedded code at that failing
input. -/
theorem c3_process_resource_result_none_missing_entry_keyerror :
    process_resource_result c3State c3Job c3Result false =
      Except.error ("KeyError: " ++ "r") := rfl

/-! ## C5: a parse producing zero records stores the sentinel -/

/-- C5: when a non-NONE resource result parses into zero records, the
resource map entry is replaced by the single-empty-record sentinel, no
template is instantiated and no unit is added: the session is otherwise
untouched (in particular no readiness recomputation event fires). -/
theorem c5_zero_records_stores_sentinel_and_skips_instantiation
    (st : SessionState) (job : Job) (result : JobResult)
    (hout : result.outcome ≠ Outcome.NONE)
    (hrs : (gen_rfc822_records_from_io_log job result).1 = []) :
    ∃ st2, process_resource_result st job result false = Except.ok st2
      ∧ st2.resource_map = setResourceList st.resource_map job.id [emptyResource]
      ∧ st2.unit_list = st.unit_list
      ∧ st2.job_state_map = st.job_state_map
      ∧ st2.events = st.events := by
  have h1 : parse_and_store_resource st job result =
      { st with resource_map := setResourceList st.resource_map job.id [emptyResource] } := by
    unfold parse_and_store_resource
    rw [if_neg hout, hrs]
    rfl
  have h2 : lookupResource (setResourceList st.resource_map job.id [emptyResource])
      job.id = Except.ok [emptyResource] :=
    lookupResource_ok.mpr (lookup_setResourceList_self _ _ _)
  have key : process_resource_result st job result false =
      Except.ok
        { st with
          resource_map := setResourceList st.resource_map job.id [emptyResource] } := by
    simp only [process_resource_result, h1, h2, except_ok_bind]
    rw [if_neg (by simp)]
  exact ⟨_, key, rfl, rfl, rfl, rfl⟩

/-! ## C6: a malformed paragraph in resource output -/

theorem genRecordsFromParagraphs_prefix_bad (ps2 : List (List String)) :
    ∀ (ps1 : List (List String)) (bad : List String),
      (∀ p ∈ ps1, (parseParagraph p).isSome) → parseParagraph bad = none →
      genRecordsFromParagraphs (ps1 ++ bad :: ps2) =
        (ps1.filterMap parseParagraph, true) := by
  intro ps1
  induction ps1 with
  | nil =>
    intro bad hgood hbad
    simp [genRecordsFromParagraphs, hbad]
  | cons p ps ih =>
    intro bad hgood hbad
    obtain ⟨r, hr⟩ := Option.isSome_iff_exists.mp (hgood p (by simp))
    have hrest := ih bad (fun q hq => hgood q (by simp [hq])) hbad
    simp [genRecordsFromParagraphs, hr, List.filterMap_cons, hrest]

/-- C6 (amended): when the stdout paragraphs are well-formed paragraphs
ps1 followed by a malformed paragraph and arbitrary further paragraphs,
the parse returns exactly the records of ps1 with the warning flag set:
the preceding records are kept, the malformed paragraph and everything
after it are discarded, and no exception escapes. -/
theorem c6_amended_records_before_malformed_kept (job : Job) (result : JobResult)
    (ps1 : List (List String)) (bad : List String) (ps2 : List (List String))
    (hsplit : splitParagraphs (stdoutLines result) = ps1 ++ bad :: ps2)
    (hgood : ∀ p ∈ ps1, (parseParagraph p).isSome)
    (hbad : parseParagraph bad = none) :
    gen_rfc822_records_from_io_log job result =
      (ps1.filterMap parseParagraph, true) := by
  simp only [gen_rfc822_records_from_io_log]
  rw [hsplit]
  exact genRecordsFromParagraphs_prefix_bad ps2 ps1 bad hgood hbad

/-- A resource job whose output contains a malformed paragraph between
two well-formed ones. -/
def c6Job : Job :=
  { id := "res6", depends := [], afterDeps := [], salvageDeps := [], beforeDeps := []
    resourceDepsResult := .ok [], resourceProgram := none, plugin := "resource"
    flags := [], siblings := [], before_references := [] }

/-- Captured output: one good paragraph, one malformed paragraph, one
further good paragraph. -/
def c6Result : JobResult :=
  { outcome := Outcome.PASS
    io_log := [(0, ("stdout", "a: 1")), (1, ("stdout", "")), (2, ("stdout", "bad")),
               (3, ("stdout", "")), (4, ("stdout", "b: 2"))] }

/-- C6 counterexample: the claim says the well-formed paragraphs after
the malformed one are also kept; here the record of the trailing
paragraph b: 2 is absent from the parse output, so the claim fails at
this input (only the record of the leading paragraph survives). -/
theorem c6_counterexample_record_after_malformed_lost :
    ([("b", "2")] : Resource) ∉ (gen_rfc822_records_from_io_log c6Job c6Result).1 ∧
      (gen_rfc822_records_from_io_log c6Job c6Result).1 = [[("a", "1")]] := by
  constructor
  · decide
  · rfl

/-- Closed witness for the amended C6 theorem at a concrete input. -/
theorem c6_amended_witness :
    gen_rfc822_records_from_io_log c6Job c6Result =
      ([["a: 1"]].filterMap parseParagraph, true) :=
  c6_amended_records_before_malformed_kept c6Job c6Result
    [["a: 1"]] ["bad"] [["b: 2"]] (by decide) (by decide) (by decide)

/-- A resource job whose output is empty, exercising the zero-record
path of C5. -/
def c5Job : Job :=
  { id := "res5", depends := [], afterDeps := [], salvageDeps := [], beforeDeps := []
    resourceDepsResult := .ok [], resourceProgram := none, plugin := "resource"
    flags := [], siblings := [], before_references := [] }

/-- A passing result with no captured output. -/
def c5Result : JobResult := { outcome := Outcome.PASS, io_log := [] }

/-- A session containing a template bound to the resource job, to show
it is not expanded in the sentinel case. -/
def c5State : SessionState :=
  { job_state_map := [], resource_map := [], unit_list := [], metadata_flags := []
    events := [] }

/-- Closed witness for C5 at a concrete input. -/
theorem c5_witness :
    ∃ st2, process_resource_result c5State c5Job c5Result false = Except.ok st2
      ∧ st2.resource_map = setResourceList c5State.resource_map c5Job.id [emptyResource]
      ∧ st2.unit_list = c5State.unit_list
      ∧ st2.job_state_map = c5State.job_state_map
      ∧ st2.events = c5State.events :=
  c5_zero_records_stores_sentinel_and_skips_instantiation c5State c5Job c5Result
    (by decide) rfl

/-! ## C1: hard dependency inhibitors -/

/-- The job states found for a list of dependency ids. -/
def statesOf (st : SessionState) (ds : List String) : List JobState :=
  ds.filterMap (fun d => st.job_state_map.lookup d)

/-- Concatenation of the inhibitors a step derives from each state. -/
def flatInhib (f : JobState → List JobReadinessInhibitor) :
    List JobState → List JobReadinessInhibitor
  | [] => []
  | s :: ss => f s ++ flatInhib f ss

theorem mem_flatInhib {f : JobState → List JobReadinessInhibitor}
    {i : JobReadinessInhibitor} :
    ∀ {ss : List JobState}, i ∈ flatInhib f ss ↔ ∃ s ∈ ss, i ∈ f s := by
  intro ss
  induction ss with
  | nil => simp [flatInhib]
  | cons s ss ih =>
    simp only [flatInhib, List.mem_append, ih, List.mem_cons]
    constructor
    · rintro (h | ⟨s2, hs2, hi⟩)
      · exact ⟨s, Or.inl rfl, h⟩
      · exact ⟨s2, Or.inr hs2, hi⟩
    · rintro ⟨s2, (rfl | hs2), hi⟩
      · exact Or.inl hi
      · exact Or.inr ⟨s2, hs2, hi⟩

theorem depListInhibitors_ok {st : SessionState}
    {f : JobState → List JobReadinessInhibitor} :
    ∀ {ds : List String} {out : List JobReadinessInhibitor},
      depListInhibitors st f ds = Except.ok out →
      out = flatInhib f (statesOf st ds) := by
  intro ds
  induction ds with
  | nil =>
    intro out h
    simp only [depListInhibitors] at h
    simp [statesOf, flatInhib]
    exact (Except.ok.inj h).symm
  | cons d ds ih =>
    intro out h
    unfold depListInhibitors at h
    obtain ⟨s, hs, h2⟩ := bind_ok_iff.mp h
    obtain ⟨rest, hrest, h3⟩ := bind_ok_iff.mp h2
    rw [except_pure] at h3
    have h4 : f s ++ rest = out := Except.ok.inj h3
    have hl : st.job_state_map.lookup d = some s := lookupState_ok.mp hs
    rw [← h4, ih hrest]
    simp [statesOf, List.filterMap_cons, hl, flatInhib]

/-- The id of the job an inhibitor refers to (empty when it refers to
none). -/
def relatedId (i : JobReadinessInhibitor) : String :=
  match i.related_job with
  | some j => j.id
  | none => ""

theorem hardDepStep_shape {s : JobState} {i : JobReadinessInhibitor}
    (h : i ∈ hardDepStep s) :
    i.related_job = some s.job ∧ s.result.outcome ≠ Outcome.PASS := by
  unfold hardDepStep at h
  by_cases h1 : s.result.outcome = Outcome.NONE
  · rw [if_pos h1] at h
    simp at h
    subst h
    refine ⟨rfl, ?_⟩
    rw [h1]
    decide
  · rw [if_neg h1] at h
    by_cases h2 : s.result.outcome ≠ Outcome.PASS
    · rw [if_pos h2] at h
      simp at h
      subst h
      exact ⟨rfl, h2⟩
    · rw [if_neg h2] at h
      simp at h

theorem hard_ids_sublist (st : SessionState)
    (hwf : ∀ k s2, st.job_state_map.lookup k = some s2 → s2.job.id = k) :
    ∀ ds : List String,
      ((flatInhib hardDepStep (statesOf st ds)).map relatedId).Sublist ds := by
  intro ds
  induction ds with
  | nil => simp [statesOf, flatInhib]
  | cons d ds ih =>
    cases hl : st.job_state_map.lookup d with
    | none =>
      have he : statesOf st (d :: ds) = statesOf st ds := by
        simp [statesOf, List.filterMap_cons, hl]
      rw [he]
      exact ih.cons d
    | some s =>
      have he : statesOf st (d :: ds) = s :: statesOf st ds := by
        simp [statesOf, List.filterMap_cons, hl]
      rw [he]
      have hid : s.job.id = d := hwf d s hl
      by_cases hN : s.result.outcome = Outcome.NONE
      · have hstep : flatInhib hardDepStep (s :: statesOf st ds) =
            (⟨InhibitionCause.PENDING_DEP, some s.job, none⟩ : JobReadinessInhibitor) ::
              flatInhib hardDepStep (statesOf st ds) := by
          simp [flatInhib, hardDepStep, hN]
        rw [hstep, List.map_cons,
          show relatedId ⟨InhibitionCause.PENDING_DEP, some s.job, none⟩ = d from by
            simp [relatedId, hid]]
        exact ih.cons₂ d
      · by_cases hP : s.result.outcome = Outcome.PASS
        · have hstep : flatInhib hardDepStep (s :: statesOf st ds) =
              flatInhib hardDepStep (statesOf st ds) := by
            simp [flatInhib, hardDepStep, hN, hP]
          rw [hstep]
          exact ih.cons d
        · have hstep : flatInhib hardDepStep (s :: statesOf st ds) =
              (⟨InhibitionCause.FAILED_DEP, some s.job, none⟩ : JobReadinessInhibitor) ::
                flatInhib hardDepStep (statesOf st ds) := by
            simp [flatInhib, hardDepStep, hN, hP]
          rw [hstep, List.map_cons,
            show relatedId ⟨InhibitionCause.FAILED_DEP, some s.job, none⟩ = d from by
              simp [relatedId, hid]]
          exact ih.cons₂ d

/-- C1: for every hard dependency D of a job, the hard dependency loop
of get_inhibitor_list contributes a PENDING_DEP inhibitor referencing
the job of D when the stored outcome of D is NONE, a FAILED_DEP
inhibitor when the outcome is neither NONE nor PASS, and no inhibitor
referencing the job of D when the outcome is PASS; every inhibitor of
the loop is in the full inhibitor list, and the loop visits the hard
dependencies sorted by id (its related job ids form a sorted
sequence). -/
theorem c1_hard_dependency_inhibitors
    (evalP : ResourceProgram → ResourceMap → EvalOutcome)
    (st : SessionState) (job : Job) (L hseg : List JobReadinessInhibitor)
    (D : String) (s : JobState)
    (hok : get_inhibitor_list evalP st job = Except.ok L)
    (hh : hardDepInhibitors st job = Except.ok hseg)
    (hwf : ∀ k s2, st.job_state_map.lookup k = some s2 → s2.job.id = k)
    (hD : D ∈ job.depends)
    (hs : st.job_state_map.lookup D = some s) :
    (∀ i ∈ hseg, i ∈ L)
    ∧ (s.result.outcome = Outcome.NONE →
        (⟨InhibitionCause.PENDING_DEP, some s.job, none⟩ : JobReadinessInhibitor) ∈ hseg)
    ∧ (s.result.outcome ≠ Outcome.NONE → s.result.outcome ≠ Outcome.PASS →
        (⟨InhibitionCause.FAILED_DEP, some s.job, none⟩ : JobReadinessInhibitor) ∈ hseg)
    ∧ (s.result.outcome = Outcome.PASS → ∀ i ∈ hseg, i.related_job ≠ some s.job)
    ∧ (hseg.map relatedId).Sorted (fun a b => a ≤ b) := by
  have hseg_eq : hseg = flatInhib hardDepStep (statesOf st (sortIds job.depends)) := by
    unfold hardDepInhibitors at hh
    exact depListInhibitors_ok hh
  have hDs : D ∈ sortIds job.depends := by
    unfold sortIds
    exact (List.mem_insertionSort _).mpr hD
  have hsmem : s ∈ statesOf st (sortIds job.depends) :=
    List.mem_filterMap.mpr ⟨D, hDs, hs⟩
  refine ⟨?_, ?_, ?_, ?_, ?_⟩
  · intro i hi
    unfold get_inhibitor_list at hok
    obtain ⟨r, hr, hok2⟩ := bind_ok_iff.mp hok
    obtain ⟨h2, hh2, hok3⟩ := bind_ok_iff.mp hok2
    obtain ⟨a, ha, hok4⟩ := bind_ok_iff.mp hok3
    obtain ⟨sv, hsv, hok5⟩ := bind_ok_iff.mp hok4
    obtain ⟨sp, hsp, hok6⟩ := bind_ok_iff.mp hok5
    rw [except_pure] at hok6
    have hL : r ++ h2 ++ a ++ sv ++ sp = L := Except.ok.inj hok6
    rw [hh] at hh2
    have hh3 : hseg = h2 := Except.ok.inj hh2
    rw [← hL, ← hh3]
    simp only [List.mem_append]
    exact Or.inl (Or.inl (Or.inl (Or.inr hi)))
  · intro hN
    rw [hseg_eq]
    refine mem_flatInhib.mpr ⟨s, hsmem, ?_⟩
    simp [hardDepStep, hN]
  · intro h1 h2
    rw [hseg_eq]
    refine mem_flatInhib.mpr ⟨s, hsmem, ?_⟩
    simp [hardDepStep, h1, h2]
  · intro hP i hi hrel
    rw [hseg_eq] at hi
    obtain ⟨s2, hs2mem, hs2i⟩ := mem_flatInhib.mp hi
    obtain ⟨hrel2, hnp⟩ := hardDepStep_shape hs2i
    obtain ⟨d2, hd2mem, hd2⟩ := List.mem_filterMap.mp hs2mem
    have hjid2 : s2.job.id = d2 := hwf d2 s2 hd2
    have hjid : s.job.id = D := hwf D s hs
    have hjeq : s2.job = s.job := Option.some.inj (hrel2.symm.trans hrel)
    have hdD : d2 = D := by rw [← hjid2, hjeq, hjid]
    rw [hdD] at hd2
    have : s2 = s := Option.some.inj (hd2.symm.trans hs)
    rw [this] at hnp
    exact hnp hP
  · rw [hseg_eq]
    have hsorted : (sortIds job.depends).Sorted (fun a b => a ≤ b) :=
      List.sorted_insertionSort _ job.depends
    exact hsorted.sublist (hard_ids_sublist st hwf (sortIds job.depends))

/-- An ordinary job serving as a hard dependency with outcome NONE. -/
def c1DepJob : Job :=
  { id := "d", depends := [], afterDeps := [], salvageDeps := [], beforeDeps := []
    resourceDepsResult := .ok [], resourceProgram := none, plugin := "shell"
    flags := [], siblings := [], before_references := [] }

/-- The job state of the dependency, still at outcome NONE. -/
def c1DepState : JobState :=
  { job := c1DepJob, result := { outcome := Outcome.NONE, io_log := [] }
    readiness_inhibitor_list := [] }

/-- A job declaring a single hard dependency. -/
def c1Job : Job :=
  { id := "j", depends := ["d"], afterDeps := [], salvageDeps := [], beforeDeps := []
    resourceDepsResult := .ok [], resourceProgram := none, plugin := "shell"
    flags := [], siblings := [], before_references := [] }

/-- The session state for the C1 witness. -/
def c1State : SessionState :=
  { job_state_map := [("d", c1DepState)], resource_map := [], unit_list := []
    metadata_flags := [], events := [] }

/-- Closed witness for C1 at a concrete input: the pending dependency
produces its PENDING_DEP inhibitor. -/
theorem c1_hard_dependency_inhibitors_witness :
    (⟨InhibitionCause.PENDING_DEP, some c1DepJob, none⟩ : JobReadinessInhibitor) ∈
      [(⟨InhibitionCause.PENDING_DEP, some c1DepJob, none⟩ : JobReadinessInhibitor)] :=
  (c1_hard_dependency_inhibitors (fun _ _ => EvalOutcome.ok) c1State c1Job
    [⟨InhibitionCause.PENDING_DEP, some c1DepJob, none⟩]
    [⟨InhibitionCause.PENDING_DEP, some c1DepJob, none⟩]
    "d" c1DepState rfl rfl
    (by
      intro k s2 h
      revert h
      cases hkq : (k == "d") with
      | true =>
        intro h
        have hk : k = "d" := by rwa [beq_iff_eq] at hkq
        simp [c1State, List.lookup, hkq] at h
        rw [← h, hk]
        rfl
      | false =>
        intro h
        simp [c1State, List.lookup, hkq] at h)
    (by decide) rfl).2.1 rfl

/-! ## C7: suspend checkpoint with a single linked job -/

/-- C7: a suspend checkpoint job with no declarations of its own and
exactly one linked desired job carries exactly one PENDING_DEP inhibitor
referencing the linked job while its outcome is NONE, and none once the
outcome is PASS. -/
theorem c7_suspend_checkpoint_single_linked_job
    (evalP : ResourceProgram → ResourceMap → EvalOutcome)
    (st : SessionState) (job Lj : Job) (Ls : JobState)
    (hid : job.id = Suspend.AUTO_JOB_ID ∨ job.id = Suspend.MANUAL_JOB_ID)
    (hprog : job.resourceProgram = none)
    (hdep : job.depends = []) (haft : job.afterDeps = []) (hsal : job.salvageDeps = [])
    (hrun : suspendImpactingRunList st job.id = [Lj])
    (hLs : st.job_state_map.lookup Lj.id = some Ls) :
    (Ls.result.outcome = Outcome.NONE →
      get_inhibitor_list evalP st job =
        Except.ok [⟨InhibitionCause.PENDING_DEP, some Lj, none⟩])
    ∧ (Ls.result.outcome = Outcome.PASS →
      get_inhibitor_list evalP st job = Except.ok []) := by
  have hr : resourceInhibitors evalP st job = Except.ok [] := by
    unfold resourceInhibitors
    rw [hprog]
  have hhd : hardDepInhibitors st job = Except.ok [] := by
    unfold hardDepInhibitors
    rw [hdep]
    rfl
  have haf : afterDepInhibitors st job = Except.ok [] := by
    unfold afterDepInhibitors
    rw [haft]
    rfl
  have hsv : salvageDepInhibitors st job = Except.ok [] := by
    unfold salvageDepInhibitors
    rw [hsal]
    rfl
  have hlook : lookupState st.job_state_map Lj.id = Except.ok Ls :=
    lookupState_ok.mpr hLs
  have hsp : get_suspend_inhibitor_list st job =
      Except.ok ((if Ls.result.outcome = Outcome.NONE then
        [(⟨InhibitionCause.PENDING_DEP, some Lj, none⟩ : JobReadinessInhibitor)]
      else []) ++ []) := by
    unfold get_suspend_inhibitor_list
    rw [hrun]
    unfold suspendPendingInhibitors
    rw [hlook, except_ok_bind,
      show suspendPendingInhibitors st [] = Except.ok [] from rfl,
      except_ok_bind, except_pure]
  have hss : suspendStep st job =
      Except.ok ((if Ls.result.outcome = Outcome.NONE then
        [(⟨InhibitionCause.PENDING_DEP, some Lj, none⟩ : JobReadinessInhibitor)]
      else []) ++ []) := by
    unfold suspendStep
    rw [if_pos hid]
    exact hsp
  have hmain : get_inhibitor_list evalP st job =
      Except.ok (if Ls.result.outcome = Outcome.NONE then
        [(⟨InhibitionCause.PENDING_DEP, some Lj, none⟩ : JobReadinessInhibitor)]
      else []) := by
    unfold get_inhibitor_list
    rw [hr, except_ok_bind, hhd, except_ok_bind, haf, except_ok_bind, hsv,
      except_ok_bind, hss, except_ok_bind]
    simp [except_pure]
  constructor
  · intro hN
    rw [hmain, if_pos hN]
  · intro hP
    rw [hmain, if_neg (by rw [hP]; decide)]

/-- A job linked to the automatic suspend checkpoint through its
also-after-suspend flag, at outcome NONE. -/
def c7Linked : Job :=
  { id := "L1", depends := [], afterDeps := [], salvageDeps := [], beforeDeps := []
    resourceDepsResult := .ok [], resourceProgram := none, plugin := "shell"
    flags := [Suspend.AUTO_FLAG], siblings := [], before_references := [] }

/-- The job state of the linked job. -/
def c7LinkedState : JobState :=
  { job := c7Linked, result := { outcome := Outcome.NONE, io_log := [] }
    readiness_inhibitor_list := [] }

/-- The automatic suspend checkpoint job, with no declarations of its
own. -/
def c7Checkpoint : Job :=
  { id := Suspend.AUTO_JOB_ID, depends := [], afterDeps := [], salvageDeps := []
    beforeDeps := [], resourceDepsResult := .ok [], resourceProgram := none
    plugin := "shell", flags := [], siblings := [], before_references := [] }

/-- The session for the C7 witness. -/
def c7State : SessionState :=
  { job_state_map := [("L1", c7LinkedState)], resource_map := [], unit_list := []
    metadata_flags := [], events := [] }

/-- Closed witness for C7 at a concrete input. -/
theorem c7_suspend_checkpoint_witness :
    get_inhibitor_list (fun _ _ => EvalOutcome.ok) c7State c7Checkpoint =
      Except.ok [⟨InhibitionCause.PENDING_DEP, some c7Linked, none⟩] :=
  (c7_suspend_checkpoint_single_linked_job (fun _ _ => EvalOutcome.ok) c7State
    c7Checkpoint c7Linked c7LinkedState (Or.inl rfl) rfl rfl rfl rfl rfl rfl).1 rfl

/-! ## C8: jobs with empty declarations -/

/-- C8 (amended): a job with no requirement program, no hard, after or
salvage dependencies, and whose id is not one of the suspend checkpoint
ids, has an empty inhibitor list in every session state. -/
theorem c8_amended_empty_declarations_non_checkpoint
    (evalP : ResourceProgram → ResourceMap → EvalOutcome)
    (st : SessionState) (job : Job)
    (hprog : job.resourceProgram = none)
    (hdep : job.depends = []) (haft : job.afterDeps = []) (hsal : job.salvageDeps = [])
    (hid1 : job.id ≠ Suspend.AUTO_JOB_ID) (hid2 : job.id ≠ Suspend.MANUAL_JOB_ID) :
    get_inhibitor_list evalP st job = Except.ok [] := by
  have hr : resourceInhibitors evalP st job = Except.ok [] := by
    unfold resourceInhibitors
    rw [hprog]
  have hhd : hardDepInhibitors st job = Except.ok [] := by
    unfold hardDepInhibitors
    rw [hdep]
    rfl
  have haf : afterDepInhibitors st job = Except.ok [] := by
    unfold afterDepInhibitors
    rw [haft]
    rfl
  have hsv : salvageDepInhibitors st job = Except.ok [] := by
    unfold salvageDepInhibitors
    rw [hsal]
    rfl
  have hss : suspendStep st job = Except.ok [] := by
    unfold suspendStep
    rw [if_neg (by simp [hid1, hid2])]
  unfold get_inhibitor_list
  rw [hr, except_ok_bind, hhd, except_ok_bind, haf, except_ok_bind, hsv,
    except_ok_bind, hss, except_ok_bind]
  simp [except_pure]

/-- A job carrying the also-after-suspend flag, at outcome NONE, making
the automatic checkpoint wait for it. -/
def c8FlaggedJob : Job :=
  { id := "f1", depends := [], afterDeps := [], salvageDeps := [], beforeDeps := []
    resourceDepsResult := .ok [], resourceProgram := none, plugin := "shell"
    flags := [Suspend.AUTO_FLAG], siblings := [], before_references := [] }

/-- The automatic suspend checkpoint job with entirely empty
declarations. -/
def c8CheckpointJob : Job :=
  { id := Suspend.AUTO_JOB_ID, depends := [], afterDeps := [], salvageDeps := []
    beforeDeps := [], resourceDepsResult := .ok [], resourceProgram := none
    plugin := "shell", flags := [], siblings := [], before_references := [] }

/-- A plain job with empty declarations and a non-checkpoint id. -/
def c8PlainJob : Job :=
  { id := "p", depends := [], afterDeps := [], salvageDeps := [], beforeDeps := []
    resourceDepsResult := .ok [], resourceProgram := none, plugin := "shell"
    flags := [], siblings := [], before_references := [] }

/-- The session for the C8 counterexample: the flagged job is desired
and still at outcome NONE. -/
def c8State : SessionState :=
  { job_state_map :=
      [("f1", { job := c8FlaggedJob, result := { outcome := Outcome.NONE, io_log := [] }
                readiness_inhibitor_list := [] })]
    resource_map := [], unit_list := [], metadata_flags := [], events := [] }

/-- C8 counterexample: the claim extends the empty-inhibitor property to
the suspend checkpoint ids, but a checkpoint job with entirely empty
declarations still collects a PENDING_DEP inhibitor from a linked
flagged job, so its inhibitor list is not empty. -/
theorem c8_counterexample_checkpoint_collects_inhibitor :
    get_inhibitor_list (fun _ _ => EvalOutcome.ok) c8State c8CheckpointJob ≠
      Except.ok [] := by
  rw [show get_inhibitor_list (fun _ _ => EvalOutcome.ok) c8State c8CheckpointJob =
    Except.ok [⟨InhibitionCause.PENDING_DEP, some c8FlaggedJob, none⟩] from rfl]
  simp

/-- Closed witness for the amended C8 theorem at a concrete input. -/
theorem c8_amended_witness :
    get_inhibitor_list (fun _ _ => EvalOutcome.ok) c8State c8PlainJob = Except.ok [] :=
  c8_amended_empty_declarations_non_checkpoint (fun _ _ => EvalOutcome.ok) c8State
    c8PlainJob rfl rfl rfl rfl (by decide) (by decide)

/-! ## C9 and C2: the before-reference linker -/

theorem addRef_mem_self (j : Job) (i : String) : i ∈ (addRef j i).before_references := by
  unfold addRef
  by_cases h : j.before_references.contains i
  · rw [if_pos h]
    simpa using h
  · rw [if_neg h]
    simp

theorem addRef_mem_mono {j : Job} {i x : String} (h : x ∈ j.before_references) :
    x ∈ (addRef j i).before_references := by
  unfold addRef
  by_cases hc : j.before_references.contains i
  · rw [if_pos hc]
    exact h
  · rw [if_neg hc]
    simp [h]

theorem addRef_idem (j : Job) (i : String) : addRef (addRef j i) i = addRef j i := by
  unfold addRef
  by_cases hc : j.before_references.contains i
  · rw [if_pos hc, if_pos hc]
  · rw [if_neg hc]
    have h2 : ((j.before_references ++ [i]).contains i) = true := by simp
    simp [h2]

theorem beforeDep_loop_lookup (job : Job) (g : List (String × Job)) :
    ∀ (ds : List String) (m : List (String × Job)) (logs : List LogMsg) (k : String),
      ((ds.foldl (beforeDepStep job g) (m, logs)).1).lookup k =
        if k ∈ ds ∧ (g.lookup k).isSome then
          (m.lookup k).map (fun jb => addRef jb job.id)
        else m.lookup k := by
  intro ds
  induction ds with
  | nil =>
    intro m logs k
    simp
  | cons d ds ih =>
    intro m logs k
    rw [List.foldl_cons]
    by_cases hg : (g.lookup d).isNone
    · rw [show beforeDepStep job g (m, logs) d =
          (m, logs ++ [LogMsg.errorMissingGlobal job.id d]) from by
        unfold beforeDepStep
        rw [if_pos hg]]
      rw [ih]
      by_cases hk : k = d
      · subst hk
        have hns : ¬ (g.lookup k).isSome = true := by
          rw [Option.isNone_iff_eq_none] at hg
          simp [hg]
        simp [hns]
      · exact if_congr (by simp [List.mem_cons, hk]) rfl rfl
    · by_cases hm : (m.lookup d).isNone
      · rw [show beforeDepStep job g (m, logs) d =
            (m, logs ++ [LogMsg.debugNotInPlan job.id d]) from by
          unfold beforeDepStep
          rw [if_neg hg, if_pos hm]]
        rw [ih]
        by_cases hk : k = d
        · subst hk
          have hmn : m.lookup k = none := Option.isNone_iff_eq_none.mp hm
          simp [hmn]
        · exact if_congr (by simp [List.mem_cons, hk]) rfl rfl
      · rw [show beforeDepStep job g (m, logs) d =
            (updateJob m d (fun j => addRef j job.id), logs) from by
          unfold beforeDepStep
          rw [if_neg hg, if_neg hm]]
        rw [ih]
        by_cases hk : k = d
        · subst hk
          have hg2 : (g.lookup k).isSome := by
            cases hgl : g.lookup k with
            | none => rw [hgl] at hg; simp at hg
            | some v => rfl
          obtain ⟨jb, hjb⟩ : ∃ jb, m.lookup k = some jb := by
            cases hml : m.lookup k with
            | none => rw [hml] at hm; simp at hm
            | some v => exact ⟨v, rfl⟩
          have hup : (updateJob m k (fun j => addRef j job.id)).lookup k =
              some (addRef jb job.id) := by
            unfold updateJob
            rw [lookup_updateValues_self, hjb]
            rfl
          by_cases hds : k ∈ ds
          · simp [hds, hg2, hup, hjb, addRef_idem]
          · simp [hds, hg2, hup, hjb]
        · have hup : (updateJob m d (fun j => addRef j job.id)).lookup k =
              m.lookup k := by
            unfold updateJob
            exact lookup_updateValues_ne m d k _ hk
          rw [hup]
          exact if_congr (by simp [List.mem_cons, hk]) rfl rfl

theorem beforeDep_loop_logs (job : Job) (g : List (String × Job)) :
    ∀ (ds : List String) (m : List (String × Job)) (logs : List LogMsg),
      ((ds.foldl (beforeDepStep job g) (m, logs)).2) =
        logs ++ ds.filterMap (fun d =>
          if (g.lookup d).isNone then some (LogMsg.errorMissingGlobal job.id d)
          else if (m.lookup d).isNone then some (LogMsg.debugNotInPlan job.id d)
          else none) := by
  intro ds
  induction ds with
  | nil =>
    intro m logs
    simp
  | cons d ds ih =>
    intro m logs
    rw [List.foldl_cons]
    by_cases hg : (g.lookup d).isNone
    · rw [show beforeDepStep job g (m, logs) d =
          (m, logs ++ [LogMsg.errorMissingGlobal job.id d]) from by
        unfold beforeDepStep
        rw [if_pos hg]]
      rw [ih]
      simp [List.filterMap_cons, hg]
    · by_cases hm : (m.lookup d).isNone
      · rw [show beforeDepStep job g (m, logs) d =
            (m, logs ++ [LogMsg.debugNotInPlan job.id d]) from by
          unfold beforeDepStep
          rw [if_neg hg, if_pos hm]]
        rw [ih]
        simp [List.filterMap_cons, hg, hm]
      · rw [show beforeDepStep job g (m, logs) d =
            (updateJob m d (fun j => addRef j job.id), logs) from by
          unfold beforeDepStep
          rw [if_neg hg, if_neg hm]]
        rw [ih]
        have hcong : ∀ d2 ∈ ds,
            (if (g.lookup d2).isNone then some (LogMsg.errorMissingGlobal job.id d2)
             else if ((updateJob m d (fun j => addRef j job.id)).lookup d2).isNone then
               some (LogMsg.debugNotInPlan job.id d2)
             else none) =
            (if (g.lookup d2).isNone then some (LogMsg.errorMissingGlobal job.id d2)
             else if (m.lookup d2).isNone then some (LogMsg.debugNotInPlan job.id d2)
             else none) := by
          intro d2 _
          by_cases hg2 : (g.lookup d2).isNone
          · rw [if_pos hg2, if_pos hg2]
          · rw [if_neg hg2, if_neg hg2]
            by_cases hk : d2 = d
            · subst hk
              have : (updateJob m d2 (fun j => addRef j job.id)).lookup d2 =
                  (m.lookup d2).map (fun j => addRef j job.id) := by
                unfold updateJob
                exact lookup_updateValues_self m d2 _
              rw [this]
              cases hml : m.lookup d2 <;> simp
            · have : (updateJob m d (fun j => addRef j job.id)).lookup d2 =
                  m.lookup d2 := by
                unfold updateJob
                exact lookup_updateValues_ne m d d2 _ hk
              rw [this]
        rw [List.filterMap_congr hcong]
        simp [List.filterMap_cons, hg, hm]

theorem add_before_deps_lookup (job : Job) (m g : List (String × Job)) (k : String) :
    ((add_before_deps job m g).1).lookup k =
      if k ∈ job.beforeDeps ∧ (g.lookup k).isSome then
        (m.lookup k).map (fun jb => addRef jb job.id)
      else m.lookup k :=
  beforeDep_loop_lookup job g job.beforeDeps m [] k

/-- C9: for every id D of the before list of a job, add_before_deps
logs an error and leaves the map unchanged at D when D is not in the
global catalog, logs at lower severity and leaves the map unchanged at D
when D is in the catalog but not in the active job map, records the job
id into the before_references of D only when D is in the active job map
and the catalog, and modifies no other entry.  The embedding is a total
function, so no input raises. -/
theorem c9_add_before_deps_logs_and_updates (job : Job)
    (m g : List (String × Job)) (D : String) :
    (D ∈ job.beforeDeps → (g.lookup D).isNone →
      LogMsg.errorMissingGlobal job.id D ∈ (add_before_deps job m g).2
        ∧ ((add_before_deps job m g).1).lookup D = m.lookup D)
    ∧ (D ∈ job.beforeDeps → (g.lookup D).isSome → (m.lookup D).isNone →
      LogMsg.debugNotInPlan job.id D ∈ (add_before_deps job m g).2
        ∧ ((add_before_deps job m g).1).lookup D = m.lookup D)
    ∧ (D ∈ job.beforeDeps → (g.lookup D).isSome → ∀ jb, m.lookup D = some jb →
      ((add_before_deps job m g).1).lookup D = some (addRef jb job.id))
    ∧ (∀ k, k ∉ job.beforeDeps ∨ ¬ (g.lookup k).isSome →
      ((add_before_deps job m g).1).lookup k = m.lookup k) := by
  have hlogs := beforeDep_loop_logs job g job.beforeDeps m []
  refine ⟨?_, ?_, ?_, ?_⟩
  · intro hD hg
    constructor
    · unfold add_before_deps
      rw [hlogs]
      simp only [List.nil_append]
      exact List.mem_filterMap.mpr ⟨D, hD, by rw [if_pos hg]⟩
    · rw [add_before_deps_lookup]
      rw [if_neg]
      rintro ⟨-, hs⟩
      rw [Option.isNone_iff_eq_none] at hg
      simp [hg] at hs
  · intro hD hg hm
    constructor
    · unfold add_before_deps
      rw [hlogs]
      simp only [List.nil_append]
      refine List.mem_filterMap.mpr ⟨D, hD, ?_⟩
      obtain ⟨v, hv⟩ := Option.isSome_iff_exists.mp hg
      rw [if_neg (by simp [hv]), if_pos hm]
    · rw [add_before_deps_lookup, if_pos ⟨hD, hg⟩,
        Option.isNone_iff_eq_none.mp hm]
      rfl
  · intro hD hg jb hjb
    rw [add_before_deps_lookup, if_pos ⟨hD, hg⟩, hjb]
    rfl
  · intro k hk
    rw [add_before_deps_lookup, if_neg]
    rintro ⟨h1, h2⟩
    rcases hk with hk | hk
    · exact hk h1
    · exact hk h2

/-- A job with three before targets: one missing from the catalog, one
inactive, one active. -/
def c9Job : Job :=
  { id := "J", depends := [], afterDeps := [], salvageDeps := []
    beforeDeps := ["gone", "inactive", "there"], resourceDepsResult := .ok []
    resourceProgram := none, plugin := "shell", flags := [], siblings := []
    before_references := [] }

/-- A catalog job that is not part of the active job map. -/
def c9Inactive : Job :=
  { id := "inactive", depends := [], afterDeps := [], salvageDeps := [], beforeDeps := []
    resourceDepsResult := .ok [], resourceProgram := none, plugin := "shell"
    flags := [], siblings := [], before_references := [] }

/-- The active target job. -/
def c9There : Job :=
  { id := "there", depends := [], afterDeps := [], salvageDeps := [], beforeDeps := []
    resourceDepsResult := .ok [], resourceProgram := none, plugin := "shell"
    flags := [], siblings := [], before_references := [] }

/-- The active job map for the C9 witness. -/
def c9Map : List (String × Job) := [("J", c9Job), ("there", c9There)]

/-- The global catalog for the C9 witness. -/
def c9Global : List (String × Job) :=
  [("J", c9Job), ("inactive", c9Inactive), ("there", c9There)]

/-- Closed witness for C9 at a concrete input: the missing target is
reported as an error and its map entry is untouched. -/
theorem c9_add_before_deps_witness :
    LogMsg.errorMissingGlobal c9Job.id "gone" ∈ (add_before_deps c9Job c9Map c9Global).2
      ∧ ((add_before_deps c9Job c9Map c9Global).1).lookup "gone" = c9Map.lookup "gone" :=
  (c9_add_before_deps_logs_and_updates c9Job c9Map c9Global "gone").1
    (by decide) (by decide)

theorem add_before_deps_all_mono (g : List (String × Job)) :
    ∀ (jobs : List Job) (m : List (String × Job)) (k : String) (jb : Job),
      m.lookup k = some jb →
      ∃ jb2, (add_before_deps_all jobs m g).lookup k = some jb2
        ∧ jb.before_references ⊆ jb2.before_references := by
  intro jobs
  induction jobs with
  | nil =>
    intro m k jb h
    exact ⟨jb, h, fun _ hx => hx⟩
  | cons j js ih =>
    intro m k jb h
    have hstep := add_before_deps_lookup j m g k
    by_cases hc : k ∈ j.beforeDeps ∧ (g.lookup k).isSome
    · rw [if_pos hc, h] at hstep
      obtain ⟨jb2, h2, hsub⟩ := ih ((add_before_deps j m g).1) k (addRef jb j.id) hstep
      exact ⟨jb2, h2, fun _ hx => hsub (addRef_mem_mono hx)⟩
    · rw [if_neg hc, h] at hstep
      obtain ⟨jb2, h2, hsub⟩ := ih ((add_before_deps j m g).1) k jb hstep
      exact ⟨jb2, h2, hsub⟩

theorem c2_linker_aux (g : List (String × Job)) (A : Job) (Bid : String)
    (hbefore : Bid ∈ A.beforeDeps) (hBg : (g.lookup Bid).isSome) :
    ∀ (jobs : List Job) (m : List (String × Job)) (jb : Job),
      m.lookup Bid = some jb → A ∈ jobs →
      ∃ jb2, (add_before_deps_all jobs m g).lookup Bid = some jb2
        ∧ A.id ∈ jb2.before_references := by
  intro jobs
  induction jobs with
  | nil =>
    intro m jb h hA
    simp at hA
  | cons j js ih =>
    intro m jb h hA
    have hstep := add_before_deps_lookup j m g Bid
    rcases List.mem_cons.mp hA with rfl | hAjs
    · rw [if_pos ⟨hbefore, hBg⟩, h] at hstep
      obtain ⟨jb2, h2, hsub⟩ :=
        add_before_deps_all_mono g js ((add_before_deps A m g).1) Bid
          (addRef jb A.id) hstep
      exact ⟨jb2, h2, hsub (addRef_mem_self jb A.id)⟩
    · by_cases hc : Bid ∈ j.beforeDeps ∧ (g.lookup Bid).isSome
      · rw [if_pos hc, h] at hstep
        exact ih ((add_before_deps j m g).1) (addRef jb j.id) hstep hAjs
      · rw [if_neg hc, h] at hstep
        exact ih ((add_before_deps j m g).1) jb hstep hAjs

theorem before_mem_get_dependency_set (j : Job) (jl : List Job) (x : String)
    (hx : x ∈ j.before_references) :
    (DependencyType.BEFORE, x) ∈ get_dependency_set j jl := by
  simp only [get_dependency_set]
  rw [List.mem_toFinset]
  exact List.mem_append.mpr (Or.inr (List.mem_map.mpr ⟨x, hx, rfl⟩))

/-- C2 (amended): when job A declares B in its before list and B is in
the active job map (and the global catalog), the linker pass records A
into the before_references of B, and the dependency set of the resulting
B contains an edge of type BEFORE to A (the back-edges are read out as
BEFORE edges, not AFTER edges). -/
theorem c2_amended_before_reference_read_as_BEFORE_edge
    (jobs : List Job) (m g : List (String × Job)) (A B : Job) (job_list : List Job)
    (hA : A ∈ jobs)
    (hbefore : B.id ∈ A.beforeDeps)
    (hBm : m.lookup B.id = some B)
    (hBg : (g.lookup B.id).isSome) :
    ∃ B2, (add_before_deps_all jobs m g).lookup B.id = some B2
      ∧ (DependencyType.BEFORE, A.id) ∈ get_dependency_set B2 job_list := by
  obtain ⟨B2, h2, hmem⟩ := c2_linker_aux g A B.id hbefore hBg jobs m B hBm hA
  exact ⟨B2, h2, before_mem_get_dependency_set B2 job_list A.id hmem⟩

/-- Job A declaring before: B. -/
def c2A : Job :=
  { id := "A", depends := [], afterDeps := [], salvageDeps := [], beforeDeps := ["B"]
    resourceDepsResult := .ok [], resourceProgram := none, plugin := "shell"
    flags := [], siblings := [], before_references := [] }

/-- Job B, the before target. -/
def c2B : Job :=
  { id := "B", depends := [], afterDeps := [], salvageDeps := [], beforeDeps := []
    resourceDepsResult := .ok [], resourceProgram := none, plugin := "shell"
    flags := [], siblings := [], before_references := [] }

/-- The active job map (also used as the global catalog). -/
def c2Map : List (String × Job) := [("A", c2A), ("B", c2B)]

/-- C2 counterexample: after the linker pass the dependency set of B
contains the back-edge to A tagged BEFORE, not AFTER: the claimed AFTER
edge is absent. -/
theorem c2_counterexample_edge_is_not_AFTER :
    (add_before_deps_all [c2A, c2B] c2Map c2Map).lookup "B" =
        some { c2B with before_references := ["A"] }
      ∧ (DependencyType.AFTER, "A") ∉
        get_dependency_set { c2B with before_references := ["A"] } [] := by
  constructor
  · rfl
  · decide

/-- Closed witness for the amended C2 theorem at a concrete input. -/
theorem c2_amended_witness :
    ∃ B2, (add_before_deps_all [c2A, c2B] c2Map c2Map).lookup c2B.id = some B2
      ∧ (DependencyType.BEFORE, c2A.id) ∈ get_dependency_set B2 [] :=
  c2_amended_before_reference_read_as_BEFORE_edge [c2A, c2B] c2Map c2Map c2A c2B []
    (by decide) (by decide) rfl rfl

/-! ## C10: observe_result for non-resource jobs -/

/-- C10: observing a result for a job whose plugin is not resource
stores exactly that result under the job id (overwriting any prior
one), fires the two session notifications in order, and leaves the
resource map, the unit collection, the metadata and every other job
state untouched. -/
theorem c10_observe_result_frame (st : SessionState) (job : Job) (result : JobResult)
    (js : JobState)
    (hplugin : job.plugin ≠ "resource")
    (hjs : st.job_state_map.lookup job.id = some js) :
    ∃ st2, observe_result st job result false = Except.ok st2
      ∧ st2.resource_map = st.resource_map
      ∧ st2.unit_list = st.unit_list
      ∧ st2.metadata_flags = st.metadata_flags
      ∧ st2.job_state_map.lookup job.id = some { js with result := result }
      ∧ (∀ k, k ≠ job.id → st2.job_state_map.lookup k = st.job_state_map.lookup k)
      ∧ st2.events = st.events ++
          [SessionEvent.jobStateMapChanged,
           SessionEvent.jobResultChanged job.id result] := by
  have hlook : lookupState st.job_state_map job.id = Except.ok js :=
    lookupState_ok.mpr hjs
  refine ⟨{ st with
      job_state_map := updateState st.job_state_map job.id { js with result := result }
      events := st.events ++
        [SessionEvent.jobStateMapChanged,
         SessionEvent.jobResultChanged job.id result] }, ?_, rfl, rfl, rfl, ?_, ?_, rfl⟩
  · simp only [observe_result, hlook, except_ok_bind]
    rw [if_neg hplugin]
  · show (updateState st.job_state_map job.id { js with result := result }).lookup
      job.id = some { js with result := result }
    unfold updateState
    rw [lookup_updateValues_self, hjs]
    rfl
  · intro k hk
    show (updateState st.job_state_map job.id { js with result := result }).lookup k =
      st.job_state_map.lookup k
    unfold updateState
    exact lookup_updateValues_ne _ _ _ _ hk

/-- An ordinary shell job for the C10 witness. -/
def c10Job : Job :=
  { id := "j10", depends := [], afterDeps := [], salvageDeps := [], beforeDeps := []
    resourceDepsResult := .ok [], resourceProgram := none, plugin := "shell"
    flags := [], siblings := [], before_references := [] }

/-- Its prior job state, holding an old result that will be
overwritten. -/
def c10OldState : JobState :=
  { job := c10Job, result := { outcome := Outcome.FAIL, io_log := [] }
    readiness_inhibitor_list := [] }

/-- The fresh passing result. -/
def c10NewResult : JobResult := { outcome := Outcome.PASS, io_log := [] }

/-- The session for the C10 witness. -/
def c10State : SessionState :=
  { job_state_map := [("j10", c10OldState)], resource_map := [("res", [[("k", "v")]])]
    unit_list := [], metadata_flags := [], events := [] }

/-- Closed witness for C10 at a concrete input. -/
theorem c10_observe_result_frame_witness :
    ∃ st2, observe_result c10State c10Job c10NewResult false = Except.ok st2
      ∧ st2.resource_map = c10State.resource_map
      ∧ st2.unit_list = c10State.unit_list
      ∧ st2.metadata_flags = c10State.metadata_flags
      ∧ st2.job_state_map.lookup c10Job.id =
          some { c10OldState with result := c10NewResult }
      ∧ (∀ k, k ≠ c10Job.id →
          st2.job_state_map.lookup k = c10State.job_state_map.lookup k)
      ∧ st2.events = c10State.events ++
          [SessionEvent.jobStateMapChanged,
           SessionEvent.jobResultChanged c10Job.id c10NewResult] :=
  c10_observe_result_frame c10State c10Job c10NewResult c10OldState (by decide) rfl

/-! ## C4: template instantiation counts -/

theorem splitParagraphsAux_ne_nil :
    ∀ (ls cur : List String), ∀ p ∈ splitParagraphsAux ls cur, p ≠ [] := by
  intro ls
  induction ls with
  | nil =>
    intro cur p hp
    by_cases hc : (cur.isEmpty = true)
    · simp only [splitParagraphsAux] at hp
      rw [if_pos hc] at hp
      simp at hp
    · simp only [splitParagraphsAux] at hp
      rw [if_neg hc] at hp
      simp at hp
      subst hp
      intro h
      rw [List.reverse_eq_nil_iff] at h
      rw [h] at hc
      simp at hc
  | cons l ls ih =>
    intro cur p hp
    simp only [splitParagraphsAux] at hp
    by_cases hl : ((l == "") = true)
    · rw [if_pos hl] at hp
      by_cases hc : (cur.isEmpty = true)
      · rw [if_pos hc] at hp
        exact ih [] p hp
      · rw [if_neg hc] at hp
        rcases List.mem_cons.mp hp with rfl | hp2
        · intro h
          rw [List.reverse_eq_nil_iff] at h
          rw [h] at hc
          simp at hc
        · exact ih [] p hp2
    · rw [if_neg hl] at hp
      exact ih (l :: cur) p hp

theorem parseParagraph_length : ∀ {p : List String} {r : Resource},
    parseParagraph p = some r → r.length = p.length := by
  intro p
  induction p with
  | nil =>
    intro r h
    simp only [parseParagraph] at h
    rw [← Option.some.inj h]
    rfl
  | cons l ls ih =>
    intro r h
    simp only [parseParagraph] at h
    cases hkv : parseLine l with
    | none =>
      rw [hkv] at h
      simp at h
    | some kv =>
      rw [hkv] at h
      cases hrest : parseParagraph ls with
      | none =>
        rw [hrest] at h
        simp at h
      | some rest =>
        rw [hrest] at h
        simp at h
        rw [← h]
        simp [ih hrest]

theorem genRecords_mem_ne_nil :
    ∀ (ps : List (List String)), (∀ p ∈ ps, p ≠ []) →
      ∀ r ∈ (genRecordsFromParagraphs ps).1, r ≠ [] := by
  intro ps
  induction ps with
  | nil =>
    intro _ r hr
    simp [genRecordsFromParagraphs] at hr
  | cons p ps ih =>
    intro hps r hr
    simp only [genRecordsFromParagraphs] at hr
    cases hp : parseParagraph p with
    | none =>
      rw [hp] at hr
      simp at hr
    | some r0 =>
      rw [hp] at hr
      simp at hr
      rcases hr with rfl | hr
      · have hlen := parseParagraph_length hp
        have hpne := hps p (by simp)
        intro h
        rw [h] at hlen
        simp at hlen
        exact hpne (List.length_eq_zero.mp hlen.symm)
      · exact ih (fun q hq => hps q (by simp [hq])) r hr

theorem gen_rfc822_records_ne_nil (job : Job) (result : JobResult) :
    ∀ r ∈ (gen_rfc822_records_from_io_log job result).1, r ≠ [] := by
  intro r hr
  simp only [gen_rfc822_records_from_io_log] at hr
  exact genRecords_mem_ne_nil _
    (fun p hp => splitParagraphsAux_ne_nil (stdoutLines result) [] p hp) r hr

theorem records_ne_sentinel {rs : List Resource} (_hne : rs ≠ [])
    (h : ∀ r ∈ rs, r ≠ []) : rs ≠ [emptyResource] := by
  intro heq
  exact h emptyResource (by rw [heq]; simp) rfl

theorem foldl_add_unit (ks : List SUnit) :
    ∀ st : SessionState,
      ks.foldl add_unit st = { st with unit_list := st.unit_list ++ ks } := by
  induction ks with
  | nil =>
    intro st
    simp
  | cons k ks ih =>
    intro st
    rw [List.foldl_cons, ih]
    simp [add_unit, List.append_assoc]

theorem flatten_instantiate_length (rs : List Resource) (fake : Bool) :
    ∀ ts : List TemplateUnit,
      ((ts.map (fun t => t.instantiate_all rs fake)).flatten).length =
        rs.length * ts.length := by
  intro ts
  induction ts with
  | nil => simp
  | cons t ts ih =>
    have h1 : (t.instantiate_all rs fake).length = rs.length := by
      simp [TemplateUnit.instantiate_all]
    rw [List.map_cons, List.flatten_cons, List.length_append, ih, h1, List.length_cons]
    ring

theorem unitId_wrap (u : GenUnit) : (wrap_invalid_units u).unitId = u.id := by
  cases hu : u.check with
  | missingParam p => simp [wrap_invalid_units, hu, SUnit.unitId]
  | findings fs =>
    by_cases h : ((fs.filter (fun c => c.severity == Severity.error)).isEmpty = true)
    · simp [wrap_invalid_units, hu, h, SUnit.unitId]
    · simp [wrap_invalid_units, hu, h, SUnit.unitId]

theorem wrap_valid_of_filter_true {u : GenUnit} (h : filter_invalid_log u = true) :
    wrap_invalid_units u = SUnit.genJob u := by
  cases hu : u.check with
  | missingParam p =>
    unfold filter_invalid_log at h
    rw [hu] at h
    simp at h
  | findings fs =>
    have h2 : ((fs.filter (fun c => c.severity == Severity.error)).isEmpty = true) := by
      unfold filter_invalid_log at h
      rw [hu] at h
      exact h
    simp [wrap_invalid_units, hu, h2]

theorem wrap_invalid_of_filter_false {u : GenUnit} (h : filter_invalid_log u = false) :
    ∃ errs, errs ≠ [] ∧ wrap_invalid_units u = SUnit.invalidJob u.id errs := by
  cases hu : u.check with
  | missingParam p =>
    exact ⟨[ValError.missingParam p], by simp, by simp [wrap_invalid_units, hu]⟩
  | findings fs =>
    have h2 : (fs.filter (fun c => c.severity == Severity.error)).isEmpty = false := by
      unfold filter_invalid_log at h
      rw [hu] at h
      exact h
    refine ⟨(fs.filter (fun c => c.severity == Severity.error)).map ValError.finding,
      ?_, ?_⟩
    · intro hmap
      rw [List.map_eq_nil_iff] at hmap
      rw [hmap] at h2
      simp at h2
    · have h3 : ¬ ((fs.filter (fun c => c.severity == Severity.error)).isEmpty = true) := by
        rw [h2]
        simp
      simp [wrap_invalid_units, hu, h3]

/-- C4: a non-NONE resource result parsing into the nonempty record
list rs yields one candidate unit per record for every bound template;
in lenient mode, when every candidate validates, exactly the candidates
are inserted as generated jobs; in strict mode one unit per candidate is
inserted regardless of validation, the inserted ids are exactly the
candidate ids, and every failing candidate appears as an InvalidJob
placeholder preserving its id and embedding a nonempty error list. -/
theorem c4_template_instantiation_counts
    (st : SessionState) (job : Job) (result : JobResult)
    (rs : List Resource) (ts : List TemplateUnit) (cands : List GenUnit)
    (hout : result.outcome ≠ Outcome.NONE)
    (hrs : (gen_rfc822_records_from_io_log job result).1 = rs)
    (hn : rs ≠ [])
    (hts : boundTemplates st job.id = ts)
    (hc : cands = (ts.map (fun t => t.instantiate_all rs false)).flatten) :
    cands.length = rs.length * ts.length
    ∧ (st.metadata_flags.contains FLAG_FEATURE_STRICT_TEMPLATE_EXPANSION = false →
        (∀ u ∈ cands, filter_invalid_log u = true) →
        ∃ st2, process_resource_result st job result false = Except.ok st2
          ∧ st2.unit_list = st.unit_list ++ cands.map SUnit.genJob)
    ∧ (st.metadata_flags.contains FLAG_FEATURE_STRICT_TEMPLATE_EXPANSION = true →
        ∃ st2, process_resource_result st job result false = Except.ok st2
          ∧ st2.unit_list.length = st.unit_list.length + cands.length
          ∧ (st2.unit_list.drop st.unit_list.length).map SUnit.unitId =
              cands.map GenUnit.id
          ∧ (∀ u ∈ cands, filter_invalid_log u = false →
              ∃ errs, errs ≠ [] ∧ SUnit.invalidJob u.id errs ∈ st2.unit_list)) := by
  have hemp : ¬ (rs.isEmpty = true) := by
    simp [List.isEmpty_iff]
    exact hn
  have hstore : parse_and_store_resource st job result =
      { st with resource_map := setResourceList st.resource_map job.id rs } := by
    simp only [parse_and_store_resource, hrs]
    rw [if_neg hout, if_neg hemp]
  have hsent : rs ≠ [emptyResource] :=
    records_ne_sentinel hn
      (fun r hr => gen_rfc822_records_ne_nil job result r (by rw [hrs]; exact hr))
  have hlook1 : lookupResource (setResourceList st.resource_map job.id rs) job.id =
      Except.ok rs := lookupResource_ok.mpr (lookup_setResourceList_self _ _ _)
  have hproc : process_resource_result st job result false =
      instantiate_templates
        { st with resource_map := setResourceList st.resource_map job.id rs }
        job result false := by
    simp only [process_resource_result, hstore, hlook1, except_ok_bind]
    rw [if_pos hsent]
  have hbt : boundTemplates
      { st with resource_map := setResourceList st.resource_map job.id rs } job.id =
      ts := by
    rw [← hts]
    rfl
  refine ⟨?_, ?_, ?_⟩
  · rw [hc]
    exact flatten_instantiate_length rs false ts
  · intro hflag hvalid
    have hkept : cands.filter filter_invalid_log = cands :=
      List.filter_eq_self.mpr hvalid
    have hinst : instantiate_templates
        { st with resource_map := setResourceList st.resource_map job.id rs }
        job result false =
        Except.ok (recompute_job_readiness
          ((cands.map SUnit.genJob).foldl add_unit
            { st with resource_map := setResourceList st.resource_map job.id rs })) := by
      simp only [instantiate_templates]
      rw [if_neg hout]
      simp only [hbt, hlook1, except_ok_bind]
      rw [if_neg (by rw [hflag]; simp), ← hc, hkept]
    refine ⟨_, by rw [hproc]; exact hinst, ?_⟩
    rw [foldl_add_unit]
    rfl
  · intro hflag
    have hinst : instantiate_templates
        { st with resource_map := setResourceList st.resource_map job.id rs }
        job result false =
        Except.ok (recompute_job_readiness
          ((cands.map wrap_invalid_units).foldl add_unit
            { st with resource_map := setResourceList st.resource_map job.id rs })) := by
      simp only [instantiate_templates]
      rw [if_neg hout]
      simp only [hbt, hlook1, except_ok_bind]
      rw [if_pos hflag, ← hc]
    have hul : (recompute_job_readiness
        ((cands.map wrap_invalid_units).foldl add_unit
          { st with resource_map := setResourceList st.resource_map job.id rs })).unit_list =
        st.unit_list ++ cands.map wrap_invalid_units := by
      rw [foldl_add_unit]
      rfl
    refine ⟨_, by rw [hproc]; exact hinst, ?_, ?_, ?_⟩
    · rw [hul]
      simp
    · rw [hul, List.drop_left, List.map_map]
      exact List.map_congr_left (fun u _ => unitId_wrap u)
    · intro u hu hfalse
      obtain ⟨errs, hne2, hwrap⟩ := wrap_invalid_of_filter_false hfalse
      refine ⟨errs, hne2, ?_⟩
      rw [hul]
      exact List.mem_append.mpr (Or.inr (List.mem_map.mpr ⟨u, hu, hwrap⟩))

/-- The resource job for the C4 witness. -/
def c4Job : Job :=
  { id := "res4", depends := [], afterDeps := [], salvageDeps := [], beforeDeps := []
    resourceDepsResult := .ok [], resourceProgram := none, plugin := "resource"
    flags := [], siblings := [], before_references := [] }

/-- A passing result whose output holds two paragraph records. -/
def c4Result : JobResult :=
  { outcome := Outcome.PASS
    io_log := [(0, ("stdout", "x: 1")), (1, ("stdout", "")), (2, ("stdout", "y: 2"))] }

/-- A valid candidate generated for every record. -/
def c4Gen : GenUnit := { id := "gen", check := CheckResult.findings [] }

/-- A template bound to the resource job producing one valid candidate
per record. -/
def c4Template : TemplateUnit :=
  { resource_id := "res4", instantiateOne := fun _ _ => c4Gen }

/-- The session of the C4 witness, holding the bound template. -/
def c4State : SessionState :=
  { job_state_map := [], resource_map := []
    unit_list := [SUnit.templateUnit c4Template], metadata_flags := [], events := [] }

/-- Closed witness for C4 at a concrete input: two records and one
template give two candidates. -/
theorem c4_template_instantiation_counts_witness :
    ([c4Gen, c4Gen] : List GenUnit).length =
        ([[("x", "1")], [("y", "2")]] : List Resource).length *
          ([c4Template] : List TemplateUnit).length
    ∧ (c4State.metadata_flags.contains FLAG_FEATURE_STRICT_TEMPLATE_EXPANSION = false →
        (∀ u ∈ ([c4Gen, c4Gen] : List GenUnit), filter_invalid_log u = true) →
        ∃ st2, process_resource_result c4State c4Job c4Result false = Except.ok st2
          ∧ st2.unit_list = c4State.unit_list ++
              ([c4Gen, c4Gen] : List GenUnit).map SUnit.genJob)
    ∧ (c4State.metadata_flags.contains FLAG_FEATURE_STRICT_TEMPLATE_EXPANSION = true →
        ∃ st2, process_resource_result c4State c4Job c4Result false = Except.ok st2
          ∧ st2.unit_list.length = c4State.unit_list.length +
              ([c4Gen, c4Gen] : List GenUnit).length
          ∧ (st2.unit_list.drop c4State.unit_list.length).map SUnit.unitId =
              ([c4Gen, c4Gen] : List GenUnit).map GenUnit.id
          ∧ (∀ u ∈ ([c4Gen, c4Gen] : List GenUnit), filter_invalid_log u = false →
              ∃ errs, errs ≠ [] ∧ SUnit.invalidJob u.id errs ∈ st2.unit_list)) :=
  c4_template_instantiation_counts c4State c4Job c4Result
    [[("x", "1")], [("y", "2")]] [c4Template] [c4Gen, c4Gen]
    (by decide) rfl (by decide) rfl rfl

end Plainbox
